import Mathlib

/-!
Verification of the insurance claims record-keeper (`Assignment-1.py`).

The core of the program is `InsuranceDataManager` (two insertion-ordered
dictionaries: policyholder-id → Policyholder, claim-id → Claim) together
with the `RiskAnalyzer` and `ReportsGenerator` read-only modules.

Modelling choices, stated once:
* Python `dict`s are insertion-ordered; they are embedded as association
  lists `List (String × α)` with first-match lookup (`alookup`) and
  replace-in-place-or-append assignment (`aset`), which is exactly the
  observable behaviour of `d[k]` / `d[k] = v` / `k in d`.
* Python `float` amounts are embedded as `Rat` (the program only adds,
  sums, divides and compares them).
* A `date_of_claim` string `"%Y-%m-%d"` is embedded as the day number
  (`Int`) it parses to; `strftime`/`strptime` are mutually inverse on
  valid dates, so the day number is a faithful abstraction of the string.
  A `datetime` value (`datetime.now()`) is a day number plus a
  time-of-day offset `sec : Rat` with `0 ≤ sec < 86400`; `datetime`
  comparison and `timedelta(days = d)` subtraction act on the total
  second count `day * 86400 + sec`.
* Effects are passed explicitly: the fresh `uuid4` id and the current
  `datetime.now()` are extra arguments of the mutating operations.
* `raise ValueError(msg)` is embedded as `Except.error` carrying the
  message, tagged `notFound`/`validation` following the spec's error
  taxonomy (§7); a raising operation returns the unchanged state.
* A Python `KeyError` on dictionary indexing (e.g. resolving a claim's
  policyholder, or bucketing an unrecognised status) is embedded as
  `Option.none` for the whole aggregation.
-/

structure Policyholder where
  id : String
  name : String
  age : Int
  policy_type : String
  sum_insured : Rat
deriving DecidableEq

structure Claim where
  id : String
  policyholder_id : String
  claim_amount : Rat
  reason : String
  status : String
  date_of_claim : Int
deriving DecidableEq

/-- Python `str.lower()`: per-character ASCII lowercasing.  (Embedded as a
structural recursion so that concrete states evaluate.) -/
def pyLower (s : String) : String := String.mk (s.data.map Char.toLower)

/-- First-match lookup in an association list: Python `d[k]` / `d.get(k)`. -/
def alookup {α : Type} : List (String × α) → String → Option α
  | [], _ => none
  | (k', v) :: t, k => if k' = k then some v else alookup t k

/-- Python `d[k] = v`: replace the value in place if the key is present,
otherwise append the new binding at the end (insertion order). -/
def aset {α : Type} : List (String × α) → String → α → List (String × α)
  | [], k, v => [(k, v)]
  | (k', v') :: t, k, v => if k' = k then (k, v) :: t else (k', v') :: aset t k v

/-- The two dictionaries held by `InsuranceDataManager`. -/
structure State where
  policyholders : List (String × Policyholder)
  claims : List (String × Claim)
deriving DecidableEq

/-- The spec's error taxonomy (§7) for the `ValueError`s the code raises. -/
inductive Err where
  | notFound (msg : String)
  | validation (msg : String)
deriving DecidableEq

/-- `InsuranceDataManager.add_policyholder`.  `freshId` stands for the
generated `uuid4`. -/
def add_policyholder (s : State) (freshId : String) (name : String) (age : Int)
    (policy_type : String) (sum_insured : Rat) : Except Err String × State :=
  if name = "" ∨ age ≤ 0 ∨ sum_insured ≤ 0 then
    (Except.error (Err.validation
      "Invalid input: Name cannot be empty, age and sum insured must be positive"), s)
  else
    let ph : Policyholder := ⟨freshId, name, age, policy_type, sum_insured⟩
    (Except.ok freshId, { s with policyholders := aset s.policyholders freshId ph })

/-- `InsuranceDataManager.add_claim`.  `freshId` stands for the generated
`uuid4`; `nowDay` is the current calendar date, to which
`datetime.now().strftime("%Y-%m-%d")` evaluates. -/
def add_claim (s : State) (freshId : String) (nowDay : Int) (policyholder_id : String)
    (claim_amount : Rat) (reason : String) (status : String) : Except Err String × State :=
  if (alookup s.policyholders policyholder_id).isSome = false then
    (Except.error (Err.notFound "Policyholder not found"), s)
  else if claim_amount ≤ 0 then
    (Except.error (Err.validation "Claim amount must be positive"), s)
  else
    let c : Claim := ⟨freshId, policyholder_id, claim_amount, reason, status, nowDay⟩
    (Except.ok freshId, { s with claims := aset s.claims freshId c })

/-- `InsuranceDataManager.update_claim_status`: sets the `status` field of
the claim stored under `claim_id`, leaving every other field alone. -/
def update_claim_status (s : State) (claim_id : String) (status : String) :
    Except Err Unit × State :=
  match alookup s.claims claim_id with
  | none => (Except.error (Err.notFound "Claim not found"), s)
  | some c =>
      (Except.ok (), { s with claims := aset s.claims claim_id { c with status := status } })

/-- `InsuranceDataManager.get_claims_by_policyholder`: linear filter over
all claim values. -/
def get_claims_by_policyholder (s : State) (policyholder_id : String) : List Claim :=
  (s.claims.map Prod.snd).filter (fun c => c.policyholder_id == policyholder_id)

/-- `InsuranceDataManager.calculate_claim_frequency`.  The cutoff is
`datetime.now() - timedelta(days = days)`, so it carries `now`'s
time-of-day component `nowSec`; the parsed claim date sits at midnight. -/
def calculate_claim_frequency (s : State) (nowDay : Int) (nowSec : Rat)
    (policyholder_id : String) (days : Int) : Nat :=
  ((get_claims_by_policyholder s policyholder_id).filter
    (fun c => decide ((nowDay : Rat) * 86400 + nowSec - (days : Rat) * 86400
      ≤ (c.date_of_claim : Rat) * 86400))).length

/-- One entry of the `risk_factors` list built by
`get_high_risk_policyholders`.  The Python code stores the formatted
f-strings `"High frequency: ... claims"` / `"High claim ratio: ..."`;
each is abstracted as a tagged constructor carrying the formatted value. -/
inductive RiskFactor where
  | highFrequency (n : Nat)
  | highRatio (r : Rat)
deriving DecidableEq

/-- The record dict appended to `high_risk` for a flagged policyholder. -/
structure HighRisk where
  policyholder : Policyholder
  claim_frequency : Nat
  total_claims : Rat
  claim_ratio : Rat
  risk_factors : List RiskFactor
deriving DecidableEq

/-- Body of the `get_high_risk_policyholders` loop for one
`(policyholder_id, policyholder)` entry: `some record` when the
`risk_factors` list ends up non-empty, `none` when the entry is skipped. -/
def riskRecord (s : State) (nowDay : Int) (nowSec : Rat)
    (kv : String × Policyholder) : Option HighRisk :=
  let claims := get_claims_by_policyholder s kv.1
  let claim_frequency := calculate_claim_frequency s nowDay nowSec kv.1 365
  let total_claim_amount := (claims.map Claim.claim_amount).sum
  let claim_ratio := total_claim_amount / kv.2.sum_insured
  let risk_factors : List RiskFactor :=
    (if 3 < claim_frequency then [RiskFactor.highFrequency claim_frequency] else [])
      ++ (if (8 : Rat) / 10 < claim_ratio then [RiskFactor.highRatio claim_ratio] else [])
  if risk_factors = [] then none
  else some ⟨kv.2, claim_frequency, total_claim_amount, claim_ratio, risk_factors⟩

/-- `InsuranceDataManager.get_high_risk_policyholders`: iterate over all
policyholder entries, appending a record for each one with a non-empty
`risk_factors` list. -/
def get_high_risk_policyholders (s : State) (nowDay : Int) (nowSec : Rat) :
    List HighRisk :=
  s.policyholders.filterMap (riskRecord s nowDay nowSec)

/-- The per-policy-type aggregate dict built by
`RiskAnalyzer.get_claims_by_policy_type` (keys `count`, `total_amount`,
`pending`, `approved`, `rejected`). -/
structure PolicyAgg where
  count : Nat
  total_amount : Rat
  pending : Nat
  approved : Nat
  rejected : Nat
deriving DecidableEq

def zeroAgg : PolicyAgg := ⟨0, 0, 0, 0, 0⟩

/-- `policy_claims[policy_type][key] += 1` on the aggregate record viewed
as a dict: indexing with a key other than the five present ones is a
`KeyError` (`none`). -/
def bumpKey (a : PolicyAgg) (key : String) : Option PolicyAgg :=
  if key = "count" then some { a with count := a.count + 1 }
  else if key = "total_amount" then some { a with total_amount := a.total_amount + 1 }
  else if key = "pending" then some { a with pending := a.pending + 1 }
  else if key = "approved" then some { a with approved := a.approved + 1 }
  else if key = "rejected" then some { a with rejected := a.rejected + 1 }
  else none

/-- One iteration of the `get_claims_by_policy_type` loop: resolve the
claim's policyholder (`KeyError` if absent), create the zero aggregate on
first sight of the policy type, then apply the `count`, `total_amount`
and lowercased-status increments. -/
def cbptStep (s : State) (acc : List (String × PolicyAgg)) (c : Claim) :
    Option (List (String × PolicyAgg)) :=
  match alookup s.policyholders c.policyholder_id with
  | none => none
  | some ph =>
      let pt := ph.policy_type
      let acc1 := if (alookup acc pt).isSome then acc else acc ++ [(pt, zeroAgg)]
      match alookup acc1 pt with
      | none => none
      | some a =>
          let a1 := { a with count := a.count + 1, total_amount := a.total_amount + c.claim_amount }
          match bumpKey a1 (pyLower c.status) with
          | none => none
          | some a2 => some (aset acc1 pt a2)

/-- The loop of `get_claims_by_policy_type`, claims processed left to
right; a `KeyError` anywhere aborts the whole aggregation. -/
def cbptLoop (s : State) (acc : List (String × PolicyAgg)) :
    List Claim → Option (List (String × PolicyAgg))
  | [] => some acc
  | c :: rest =>
      match cbptStep s acc c with
      | none => none
      | some acc2 => cbptLoop s acc2 rest

/-- `RiskAnalyzer.get_claims_by_policy_type`. -/
def get_claims_by_policy_type (s : State) : Option (List (String × PolicyAgg)) :=
  cbptLoop s [] (s.claims.map Prod.snd)

/-- `d[k] = d.get(k, 0) + v` on a `Rat`-valued dict. -/
def bumpRat (l : List (String × Rat)) (k : String) (v : Rat) : List (String × Rat) :=
  aset l k ((alookup l k).getD 0 + v)

/-- `d[k] = d.get(k, 0) + 1` on a count dict. -/
def bumpNat (l : List (String × Nat)) (k : String) : List (String × Nat) :=
  aset l k ((alookup l k).getD 0 + 1)

/-- The accumulation loop of `get_average_claim_by_policy_type`: builds
`policy_totals` and `policy_counts`, aborting on an unresolvable
policyholder reference (`KeyError`). -/
def avgLoop (s : State) (totals : List (String × Rat)) (counts : List (String × Nat)) :
    List Claim → Option (List (String × Rat) × List (String × Nat))
  | [] => some (totals, counts)
  | c :: rest =>
      match alookup s.policyholders c.policyholder_id with
      | none => none
      | some ph =>
          avgLoop s (bumpRat totals ph.policy_type c.claim_amount)
            (bumpNat counts ph.policy_type) rest

/-- The final comprehension of `get_average_claim_by_policy_type`:
`policy_totals[pt] / policy_counts[pt]` for every key of `policy_totals`
(indexing `policy_counts` is a `KeyError` if the key were absent). -/
def divEntries (counts : List (String × Nat)) :
    List (String × Rat) → Option (List (String × Rat))
  | [] => some []
  | (t, total) :: rest =>
      match alookup counts t, divEntries counts rest with
      | some n, some r => some ((t, total / (n : Rat)) :: r)
      | _, _ => none

/-- `ReportsGenerator.get_average_claim_by_policy_type`. -/
def get_average_claim_by_policy_type (s : State) : Option (List (String × Rat)) :=
  match avgLoop s [] [] (s.claims.map Prod.snd) with
  | none => none
  | some (totals, counts) => divEntries counts totals

/-- Python `max(iterable, key = lambda x: x.claim_amount)`: keeps the
current best and replaces it only on a strictly larger key, so the first
maximal element wins ties. -/
def maxByAmount (best : Claim) : List Claim → Claim
  | [] => best
  | c :: rest => maxByAmount (if best.claim_amount < c.claim_amount then c else best) rest

/-- `ReportsGenerator.get_highest_claim`. -/
def get_highest_claim (s : State) : Option Claim :=
  match s.claims.map Prod.snd with
  | [] => none
  | c :: rest => some (maxByAmount c rest)

/-- A JSON value as `json.dump`/`json.load` exchange it: the snapshot
only uses objects, strings, ints and floats.  The `"%Y-%m-%d"` date
string is carried as its parsed day number (see the header note). -/
inductive JVal where
  | jstr (s : String)
  | jint (n : Int)
  | jnum (q : Rat)
  | jobj (fields : List (String × JVal))

/-- `Policyholder.to_dict` (`dataclasses.asdict`, fields in declaration
order). -/
def Policyholder.to_dict (p : Policyholder) : List (String × JVal) :=
  [("id", JVal.jstr p.id), ("name", JVal.jstr p.name), ("age", JVal.jint p.age),
   ("policy_type", JVal.jstr p.policy_type), ("sum_insured", JVal.jnum p.sum_insured)]

/-- `Policyholder.from_dict` (`cls(**data)`): each field is read from the
dict; a missing or ill-typed field is a construction failure. -/
def Policyholder.from_dict (d : List (String × JVal)) : Option Policyholder :=
  match alookup d "id", alookup d "name", alookup d "age",
      alookup d "policy_type", alookup d "sum_insured" with
  | some (JVal.jstr i), some (JVal.jstr n), some (JVal.jint a),
      some (JVal.jstr pt), some (JVal.jnum si) => some ⟨i, n, a, pt, si⟩
  | _, _, _, _, _ => none

/-- `Claim.to_dict`. -/
def Claim.to_dict (c : Claim) : List (String × JVal) :=
  [("id", JVal.jstr c.id), ("policyholder_id", JVal.jstr c.policyholder_id),
   ("claim_amount", JVal.jnum c.claim_amount), ("reason", JVal.jstr c.reason),
   ("status", JVal.jstr c.status), ("date_of_claim", JVal.jint c.date_of_claim)]

/-- `Claim.from_dict`. -/
def Claim.from_dict (d : List (String × JVal)) : Option Claim :=
  match alookup d "id", alookup d "policyholder_id", alookup d "claim_amount",
      alookup d "reason", alookup d "status", alookup d "date_of_claim" with
  | some (JVal.jstr i), some (JVal.jstr pid), some (JVal.jnum amt),
      some (JVal.jstr re), some (JVal.jstr st), some (JVal.jint dt) =>
      some ⟨i, pid, amt, re, st, dt⟩
  | _, _, _, _, _, _ => none

/-- `InsuranceDataManager.save_data`: the JSON document written to the
snapshot file (`{'policyholders': {k: v.to_dict() ...}, 'claims': ...}`). -/
def save_data (s : State) : JVal :=
  JVal.jobj
    [("policyholders", JVal.jobj (s.policyholders.map (fun kv => (kv.1, JVal.jobj kv.2.to_dict)))),
     ("claims", JVal.jobj (s.claims.map (fun kv => (kv.1, JVal.jobj kv.2.to_dict))))]

/-- The dict comprehension `{k: T.from_dict(v) for k, v in entries}`:
every value must be an object that decodes; any failure raises out of
`load_data`. -/
def decodeEntries {α : Type} (dec : List (String × JVal) → Option α) :
    List (String × JVal) → Option (List (String × α))
  | [] => some []
  | (k, v) :: rest =>
      match v with
      | JVal.jobj d =>
          match dec d, decodeEntries dec rest with
          | some a, some r => some ((k, a) :: r)
          | _, _ => none
      | _ => none

/-- `InsuranceDataManager.load_data` on a present snapshot: read the two
named collections (`data.get(..., {})`), decode every record; a
deserialization failure is caught and leaves no loaded state (`none`). -/
def load_data (j : JVal) : Option State :=
  match j with
  | JVal.jobj fields =>
      match (alookup fields "policyholders").getD (JVal.jobj []),
          (alookup fields "claims").getD (JVal.jobj []) with
      | JVal.jobj phs, JVal.jobj cls =>
          match decodeEntries Policyholder.from_dict phs, decodeEntries Claim.from_dict cls with
          | some p, some c => some ⟨p, c⟩
          | _, _ => none
      | _, _ => none
  | _ => none

/-! ## Spec-side (declarative) descriptions used to state the claims -/

/-- The policy type a claim resolves to through its policyholder. -/
def resolveType (s : State) (c : Claim) : Option String :=
  (alookup s.policyholders c.policyholder_id).map Policyholder.policy_type

/-- The claims of a list resolving to policy type `t`. -/
def claimsOfType (s : State) (l : List Claim) (t : String) : List Claim :=
  l.filter (fun c => resolveType s c == some t)

/-- How many claims of `l` carry (lowercased) status `st`. -/
def statusCount (l : List Claim) (st : String) : Nat :=
  (l.filter (fun c => (pyLower c.status) == st)).length

/-- The aggregate `get_claims_by_policy_type` is specified to produce for
policy type `t` over the claim list `l`. -/
def aggOf (s : State) (l : List Claim) (t : String) : PolicyAgg :=
  ⟨(claimsOfType s l t).length,
   ((claimsOfType s l t).map Claim.claim_amount).sum,
   statusCount (claimsOfType s l t) "pending",
   statusCount (claimsOfType s l t) "approved",
   statusCount (claimsOfType s l t) "rejected"⟩

/-- A status string the aggregation recognises after lowercasing. -/
def goodStatus (c : Claim) : Prop :=
  (pyLower c.status) = "pending" ∨ (pyLower c.status) = "approved" ∨ (pyLower c.status) = "rejected"

instance (c : Claim) : Decidable (goodStatus c) := by
  unfold goodStatus; infer_instance

/-! ## Concrete states used for witnesses and counterexamples -/

def phA : Policyholder := ⟨"P1", "Alice", 30, "Health", 10000⟩

/-- A claim filed by `P1` on day 0. -/
def clA : Claim := ⟨"C1", "P1", 9000, "engine damage", "Pending", 0⟩

/-- One policyholder, one claim. -/
def sA : State := ⟨[("P1", phA)], [("C1", clA)]⟩

/-- The same store after the claim status was overwritten to `"Weird"`. -/
def sBad : State := ⟨[("P1", phA)], [("C1", { clA with status := "Weird" })]⟩

def phH : Policyholder := ⟨"P2", "Bob", 40, "Health", 5000⟩

def clH1 : Claim := ⟨"C2", "P2", 100, "checkup", "Approved", 10⟩

def clH2 : Claim := ⟨"C3", "P2", 300, "surgery", "Approved", 20⟩

/-- Two Health claims of 100 and 300 (the spec's average-claim example). -/
def sH : State := ⟨[("P2", phH)], [("C2", clH1), ("C3", clH2)]⟩

def cM1 : Claim := ⟨"M1", "P2", 100, "a", "Pending", 1⟩

def cM2 : Claim := ⟨"M2", "P2", 500, "b", "Pending", 2⟩

def cM3 : Claim := ⟨"M3", "P2", 250, "c", "Pending", 3⟩

/-- Claims of amounts 100, 500, 250 (the spec's highest-claim example). -/
def sM : State := ⟨[("P2", phH)], [("M1", cM1), ("M2", cM2), ("M3", cM3)]⟩

/-! ## Association-list lemmas -/

theorem alookup_aset {α : Type} (l : List (String × α)) (k : String) (v : α) (k' : String) :
    alookup (aset l k v) k' = if k = k' then some v else alookup l k' := by
  induction l with
  | nil => by_cases h : k = k' <;> simp [aset, alookup, h]
  | cons kv t ih =>
      obtain ⟨k0, v0⟩ := kv
      by_cases h0 : k0 = k <;> by_cases h1 : k0 = k' <;> by_cases h2 : k = k' <;>
        simp_all [aset, alookup]

theorem alookup_append {α : Type} (l1 l2 : List (String × α)) (k : String) :
    alookup (l1 ++ l2) k =
      match alookup l1 k with
      | some v => some v
      | none => alookup l2 k := by
  induction l1 with
  | nil => simp [alookup]
  | cons kv t ih =>
      obtain ⟨k0, v0⟩ := kv
      by_cases h : k0 = k <;> simp [alookup, h, ih]

theorem alookup_isSome_of_mem {α : Type} {l : List (String × α)} {kv : String × α}
    (h : kv ∈ l) : (alookup l kv.1).isSome := by
  induction l with
  | nil => cases h
  | cons kv0 t ih =>
      obtain ⟨k0, v0⟩ := kv0
      rcases List.mem_cons.mp h with h | h
      · subst h; simp [alookup]
      · by_cases h0 : k0 = kv.1 <;> simp [alookup, h0, ih h]

/-! ## Lemmas about the spec-side descriptions -/

theorem claimsOfType_append (s : State) (l1 l2 : List Claim) (t : String) :
    claimsOfType s (l1 ++ l2) t = claimsOfType s l1 t ++ claimsOfType s l2 t := by
  simp [claimsOfType, List.filter_append]

theorem claimsOfType_single_eq {s : State} {c : Claim} {t : String}
    (h : resolveType s c = some t) : claimsOfType s [c] t = [c] := by
  simp [claimsOfType, List.filter, h]

theorem claimsOfType_single_ne {s : State} {c : Claim} {t : String}
    (h : resolveType s c ≠ some t) : claimsOfType s [c] t = [] := by
  have h' : (resolveType s c == some t) = false := beq_eq_false_iff_ne.mpr h
  simp [claimsOfType, List.filter, h']

theorem statusCount_append (l1 l2 : List Claim) (st : String) :
    statusCount (l1 ++ l2) st = statusCount l1 st + statusCount l2 st := by
  simp [statusCount, List.filter_append]

theorem statusCount_single_eq {c : Claim} {st : String} (h : (pyLower c.status) = st) :
    statusCount [c] st = 1 := by
  simp [statusCount, List.filter, h]

theorem statusCount_single_ne {c : Claim} {st : String} (h : (pyLower c.status) ≠ st) :
    statusCount [c] st = 0 := by
  have h' : ((pyLower c.status) == st) = false := beq_eq_false_iff_ne.mpr h
  simp [statusCount, List.filter, h']

theorem aggOf_eq_zero {s : State} {l : List Claim} {t : String}
    (h : claimsOfType s l t = []) : aggOf s l t = zeroAgg := by
  simp [aggOf, statusCount, h, zeroAgg]

/-! ## Lemmas about `divEntries` -/

theorem divEntries_eq_some {counts : List (String × Nat)} :
    ∀ totals : List (String × Rat), (∀ kv ∈ totals, (alookup counts kv.1).isSome) →
      ∃ m, divEntries counts totals = some m := by
  intro totals
  induction totals with
  | nil => intro _; exact ⟨[], rfl⟩
  | cons kv rest ih =>
      intro h
      obtain ⟨t, total⟩ := kv
      obtain ⟨n, hn⟩ := Option.isSome_iff_exists.mp (h (t, total) (List.mem_cons_self _ _))
      obtain ⟨m, hm⟩ := ih (fun kv hkv => h kv (List.mem_cons_of_mem _ hkv))
      exact ⟨(t, total / (n : Rat)) :: m, by simp [divEntries, hn, hm]⟩

theorem alookup_divEntries {counts : List (String × Nat)} :
    ∀ {totals m : List (String × Rat)}, divEntries counts totals = some m →
      ∀ t : String, alookup m t =
        (alookup totals t).bind (fun v => (alookup counts t).map (fun n => v / (n : Rat))) := by
  intro totals
  induction totals with
  | nil =>
      intro m hm t
      simp [divEntries] at hm
      subst hm
      simp [alookup]
  | cons kv rest ih =>
      intro m hm t
      obtain ⟨t0, v0⟩ := kv
      simp only [divEntries] at hm
      cases hc : alookup counts t0 with
      | none => rw [hc] at hm; cases hm
      | some n =>
          rw [hc] at hm
          cases hr : divEntries counts rest with
          | none => rw [hr] at hm; cases hm
          | some r =>
              rw [hr] at hm
              cases hm
              by_cases ht : t0 = t
              · subst ht; simp [alookup, hc]
              · simp [alookup, ht, ih hr t]

theorem statusCount_single (c : Claim) (st : String) :
    statusCount [c] st = if (pyLower c.status) = st then 1 else 0 := by
  by_cases h : (pyLower c.status) = st
  · simp [statusCount_single_eq h, h]
  · simp [statusCount_single_ne h, h]

theorem aggOf_append_single {s : State} {c : Claim} {pt : String}
    (hres : resolveType s c = some pt) (l : List Claim) :
    aggOf s (l ++ [c]) pt =
      ⟨(aggOf s l pt).count + 1,
       (aggOf s l pt).total_amount + c.claim_amount,
       (aggOf s l pt).pending + (if (pyLower c.status) = "pending" then 1 else 0),
       (aggOf s l pt).approved + (if (pyLower c.status) = "approved" then 1 else 0),
       (aggOf s l pt).rejected + (if (pyLower c.status) = "rejected" then 1 else 0)⟩ := by
  simp [aggOf, claimsOfType_append, claimsOfType_single_eq hres, statusCount_append,
    statusCount_single]

theorem claimsOfType_append_single_ne {s : State} {c : Claim} {t : String}
    (hne : resolveType s c ≠ some t) (l : List Claim) :
    claimsOfType s (l ++ [c]) t = claimsOfType s l t := by
  rw [claimsOfType_append, claimsOfType_single_ne hne, List.append_nil]

theorem bumpKey_goodStatus {c : Claim} (hst : goodStatus c) (a : PolicyAgg) :
    bumpKey a (pyLower c.status) =
      some ⟨a.count, a.total_amount,
        a.pending + (if (pyLower c.status) = "pending" then 1 else 0),
        a.approved + (if (pyLower c.status) = "approved" then 1 else 0),
        a.rejected + (if (pyLower c.status) = "rejected" then 1 else 0)⟩ := by
  rcases hst with hp | hp | hp <;> rw [hp] <;> rfl

theorem aggOf_congr {s : State} {l1 l2 : List Claim} {t : String}
    (h : claimsOfType s l1 t = claimsOfType s l2 t) : aggOf s l1 t = aggOf s l2 t := by
  simp [aggOf, h]

theorem cbptStep_inv (s : State) (processed : List Claim) (acc : List (String × PolicyAgg))
    (c : Claim) (pt : String) (hres : resolveType s c = some pt) (hst : goodStatus c)
    (hinv : ∀ t, alookup acc t =
      if claimsOfType s processed t = [] then none else some (aggOf s processed t)) :
    ∃ acc2, cbptStep s acc c = some acc2 ∧
      ∀ t, alookup acc2 t =
        if claimsOfType s (processed ++ [c]) t = [] then none
        else some (aggOf s (processed ++ [c]) t) := by
  obtain ⟨ph, hph, hpt⟩ := Option.map_eq_some'.mp hres
  set acc1 := if (alookup acc pt).isSome then acc else acc ++ [(pt, zeroAgg)] with hacc1
  have hlook1 : alookup acc1 pt = some (aggOf s processed pt) := by
    by_cases hmem : (alookup acc pt).isSome
    · by_cases hemp : claimsOfType s processed pt = []
      · rw [hinv pt, if_pos hemp] at hmem; cases hmem
      · rw [hacc1, if_pos hmem, hinv pt, if_neg hemp]
    · have hemp : claimsOfType s processed pt = [] := by
        by_contra hne
        rw [hinv pt, if_neg hne] at hmem
        exact hmem rfl
      rw [hacc1, if_neg hmem, alookup_append]
      rw [hinv pt, if_pos hemp, aggOf_eq_zero hemp]
      simp [alookup]
  have hlook1' : ∀ t, t ≠ pt → alookup acc1 t = alookup acc t := by
    intro t hne
    by_cases hmem : (alookup acc pt).isSome
    · rw [hacc1, if_pos hmem]
    · rw [hacc1, if_neg hmem, alookup_append]
      have hpt2 : ¬pt = t := fun h => hne h.symm
      have : alookup [(pt, zeroAgg)] t = none := by
        simp [alookup, hpt2]
      rw [this]
      cases alookup acc t <;> simp
  have hstep : cbptStep s acc c =
      some (aset acc1 pt
        ⟨(aggOf s processed pt).count + 1,
         (aggOf s processed pt).total_amount + c.claim_amount,
         (aggOf s processed pt).pending + (if (pyLower c.status) = "pending" then 1 else 0),
         (aggOf s processed pt).approved + (if (pyLower c.status) = "approved" then 1 else 0),
         (aggOf s processed pt).rejected + (if (pyLower c.status) = "rejected" then 1 else 0)⟩) := by
    rw [cbptStep, hph]
    simp only [hpt, ← hacc1, hlook1, bumpKey_goodStatus hst]
  refine ⟨_, hstep, ?_⟩
  intro t
  rw [alookup_aset]
  by_cases ht : pt = t
  · subst ht
    have hne : claimsOfType s (processed ++ [c]) pt ≠ [] := by
      rw [claimsOfType_append, claimsOfType_single_eq hres]
      simp
    rw [if_pos rfl, if_neg hne, aggOf_append_single hres]
  · have hres' : resolveType s c ≠ some t := by
      rw [hres]
      intro h
      exact ht (Option.some.inj h)
    have hagg : aggOf s (processed ++ [c]) t = aggOf s processed t :=
      aggOf_congr (by rw [claimsOfType_append_single_ne hres'])
    rw [if_neg ht, hlook1' t (fun h => ht h.symm),
      claimsOfType_append_single_ne hres', hinv t, hagg]

theorem cbptLoop_inv (s : State) :
    ∀ (rest processed : List Claim) (acc : List (String × PolicyAgg)),
      (∀ c ∈ rest, (resolveType s c).isSome) →
      (∀ c ∈ rest, goodStatus c) →
      (∀ t, alookup acc t =
        if claimsOfType s processed t = [] then none else some (aggOf s processed t)) →
      ∃ m, cbptLoop s acc rest = some m ∧
        ∀ t, alookup m t =
          if claimsOfType s (processed ++ rest) t = [] then none
          else some (aggOf s (processed ++ rest) t) := by
  intro rest
  induction rest with
  | nil =>
      intro processed acc _ _ hinv
      exact ⟨acc, rfl, by simpa using hinv⟩
  | cons c rest ih =>
      intro processed acc hres hst hinv
      obtain ⟨pt, hpt⟩ := Option.isSome_iff_exists.mp (hres c (List.mem_cons_self c rest))
      obtain ⟨acc2, hstep, hinv2⟩ :=
        cbptStep_inv s processed acc c pt hpt (hst c (List.mem_cons_self c rest)) hinv
      obtain ⟨m, hloop, hm⟩ := ih (processed ++ [c]) acc2
        (fun c' hc' => hres c' (List.mem_cons_of_mem _ hc'))
        (fun c' hc' => hst c' (List.mem_cons_of_mem _ hc')) hinv2
      have happ : (processed ++ [c]) ++ rest = processed ++ c :: rest := by simp
      refine ⟨m, ?_, ?_⟩
      · rw [cbptLoop, hstep]
        exact hloop
      · intro t
        rw [← happ]
        exact hm t

theorem avgLoop_inv (s : State) :
    ∀ (rest processed : List Claim) (totals : List (String × Rat))
        (counts : List (String × Nat)),
      (∀ c ∈ rest, (resolveType s c).isSome) →
      (∀ t, alookup totals t = if claimsOfType s processed t = [] then none
        else some ((claimsOfType s processed t).map Claim.claim_amount).sum) →
      (∀ t, alookup counts t = if claimsOfType s processed t = [] then none
        else some (claimsOfType s processed t).length) →
      ∃ totals2 counts2, avgLoop s totals counts rest = some (totals2, counts2) ∧
        (∀ t, alookup totals2 t = if claimsOfType s (processed ++ rest) t = [] then none
          else some ((claimsOfType s (processed ++ rest) t).map Claim.claim_amount).sum) ∧
        (∀ t, alookup counts2 t = if claimsOfType s (processed ++ rest) t = [] then none
          else some (claimsOfType s (processed ++ rest) t).length) := by
  intro rest
  induction rest with
  | nil =>
      intro processed totals counts _ ht hc
      exact ⟨totals, counts, rfl, by simpa using ht, by simpa using hc⟩
  | cons c rest ih =>
      intro processed totals counts hres ht hc
      obtain ⟨pt, hpt⟩ := Option.isSome_iff_exists.mp (hres c (List.mem_cons_self c rest))
      obtain ⟨ph, hph, hphpt⟩ := Option.map_eq_some'.mp hpt
      have hstep : avgLoop s totals counts (c :: rest) =
          avgLoop s (bumpRat totals pt c.claim_amount) (bumpNat counts pt) rest := by
        simp only [avgLoop, hph, hphpt]
      have ht2 : ∀ t, alookup (bumpRat totals pt c.claim_amount) t =
          if claimsOfType s (processed ++ [c]) t = [] then none
          else some ((claimsOfType s (processed ++ [c]) t).map Claim.claim_amount).sum := by
        intro t
        rw [bumpRat, alookup_aset]
        by_cases hkt : pt = t
        · subst hkt
          rw [if_pos rfl, claimsOfType_append, claimsOfType_single_eq hpt]
          have hne : claimsOfType s processed pt ++ [c] ≠ [] := by simp
          rw [if_neg hne]
          by_cases hemp : claimsOfType s processed pt = []
          · rw [ht pt, if_pos hemp, hemp]
            simp
          · rw [ht pt, if_neg hemp]
            simp
        · have hres2 : resolveType s c ≠ some t := by
            rw [hpt]; intro h; exact hkt (Option.some.inj h)
          rw [if_neg hkt, claimsOfType_append_single_ne hres2, ht t]
      have hc2 : ∀ t, alookup (bumpNat counts pt) t =
          if claimsOfType s (processed ++ [c]) t = [] then none
          else some (claimsOfType s (processed ++ [c]) t).length := by
        intro t
        rw [bumpNat, alookup_aset]
        by_cases hkt : pt = t
        · subst hkt
          rw [if_pos rfl, claimsOfType_append, claimsOfType_single_eq hpt]
          have hne : claimsOfType s processed pt ++ [c] ≠ [] := by simp
          rw [if_neg hne]
          by_cases hemp : claimsOfType s processed pt = []
          · rw [hc pt, if_pos hemp, hemp]
            simp
          · rw [hc pt, if_neg hemp]
            simp
        · have hres2 : resolveType s c ≠ some t := by
            rw [hpt]; intro h; exact hkt (Option.some.inj h)
          rw [if_neg hkt, claimsOfType_append_single_ne hres2, hc t]
      obtain ⟨totals2, counts2, hloop, ht3, hc3⟩ := ih (processed ++ [c])
        (bumpRat totals pt c.claim_amount) (bumpNat counts pt)
        (fun c' h => hres c' (List.mem_cons_of_mem _ h)) ht2 hc2
      have happ : (processed ++ [c]) ++ rest = processed ++ c :: rest := by simp
      refine ⟨totals2, counts2, ?_, ?_, ?_⟩
      · rw [hstep]; exact hloop
      · intro t; rw [← happ]; exact ht3 t
      · intro t; rw [← happ]; exact hc3 t

theorem maxByAmount_spec : ∀ (rest : List Claim) (best : Claim),
    (maxByAmount best rest = best ∧ ∀ x ∈ rest, x.claim_amount ≤ best.claim_amount) ∨
    (∃ pre post, rest = pre ++ maxByAmount best rest :: post ∧
      best.claim_amount < (maxByAmount best rest).claim_amount ∧
      (∀ x ∈ pre, x.claim_amount < (maxByAmount best rest).claim_amount) ∧
      (∀ x ∈ post, x.claim_amount ≤ (maxByAmount best rest).claim_amount)) := by
  intro rest
  induction rest with
  | nil =>
      intro best
      left
      exact ⟨rfl, by simp⟩
  | cons c rest ih =>
      intro best
      by_cases h : best.claim_amount < c.claim_amount
      · have hred : maxByAmount best (c :: rest) = maxByAmount c rest := by
          simp [maxByAmount, h]
        rcases ih c with ⟨heq, hle⟩ | ⟨pre, post, hsplit, hlt, hpre, hpost⟩
        · right
          refine ⟨[], rest, ?_, ?_, ?_, ?_⟩
          · simp [hred, heq]
          · rw [hred, heq]; exact h
          · simp
          · intro x hx; rw [hred, heq]; exact hle x hx
        · right
          refine ⟨c :: pre, post, ?_, ?_, ?_, ?_⟩
          · rw [hred]
            simpa using hsplit
          · rw [hred]
            exact lt_trans h hlt
          · intro x hx
            rw [hred]
            rcases List.mem_cons.mp hx with h' | h'
            · subst h'; exact hlt
            · exact hpre x h'
          · intro x hx
            rw [hred]
            exact hpost x hx
      · have hred : maxByAmount best (c :: rest) = maxByAmount best rest := by
          simp [maxByAmount, h]
        have hcle : c.claim_amount ≤ best.claim_amount := not_lt.mp h
        rcases ih best with ⟨heq, hle⟩ | ⟨pre, post, hsplit, hlt, hpre, hpost⟩
        · left
          rw [hred, heq]
          refine ⟨rfl, fun x hx => ?_⟩
          rcases List.mem_cons.mp hx with h' | h'
          · subst h'; exact hcle
          · exact hle x h'
        · right
          refine ⟨c :: pre, post, ?_, ?_, ?_, ?_⟩
          · rw [hred]
            simpa using hsplit
          · rw [hred]
            exact hlt
          · intro x hx
            rw [hred]
            rcases List.mem_cons.mp hx with h' | h'
            · subst h'; exact lt_of_le_of_lt hcle hlt
            · exact hpre x h'
          · intro x hx
            rw [hred]
            exact hpost x hx

/-! ## The claims -/

/-- C1 (counterexample): the claim as stated is false.  In store `sA` the
policyholder `"P1"` has the claim `clA` dated exactly `windowDays = 365`
days before today (`nowDay = 365`), yet with the current time of day at
01:00 (`nowSec = 3600`) `calculate_claim_frequency` does not count it:
the window's lower bound is not inclusive at calendar-date granularity. -/
theorem claim_frequency_boundary_cex :
    clA ∈ get_claims_by_policyholder sA "P1" ∧
    clA.date_of_claim = 365 - (365 : Int) ∧
    calculate_claim_frequency sA 365 3600 "P1" 365 = 0 := by
  have hmem : get_claims_by_policyholder sA "P1" = [clA] := by decide
  refine ⟨by rw [hmem]; exact List.mem_cons_self _ _, by decide, ?_⟩
  unfold calculate_claim_frequency
  rw [hmem]
  have hp : ¬((3600 : Rat) ≤ (clA.date_of_claim : Rat) * 86400) := by
    norm_num [clA]
  simp [List.filter, hp]

/-- C1 (amended): `calculate_claim_frequency` counts the claims of the
policyholder whose parsed date (at midnight) is `≥ now − windowDays` at
`datetime` granularity, `now`'s time of day included.  Hence a claim
dated exactly `windowDays` days before today is counted exactly when the
current time of day is midnight (`nowSec = 0`); at any later time of day
the effective lower bound is `windowDays − 1` days before today; a claim
dated `windowDays + 1` days before today is never counted. -/
theorem claim_frequency_window (s : State) (policyholder_id : String)
    (nowDay days : Int) (nowSec : Rat) (h0 : 0 ≤ nowSec) (h1 : nowSec < 86400) :
    calculate_claim_frequency s nowDay nowSec policyholder_id days =
      ((get_claims_by_policyholder s policyholder_id).filter
        (fun c => if nowSec = 0 then decide (nowDay - days ≤ c.date_of_claim)
          else decide (nowDay - days + 1 ≤ c.date_of_claim))).length := by
  unfold calculate_claim_frequency
  congr 1
  apply List.filter_congr
  intro c _
  by_cases hz : nowSec = 0
  · subst hz
    rw [if_pos rfl, decide_eq_decide]
    constructor
    · intro h
      have hq : ((nowDay - days : Int) : Rat) ≤ (c.date_of_claim : Rat) := by
        push_cast
        linarith
      exact_mod_cast hq
    · intro h
      have hq : ((nowDay - days : Int) : Rat) ≤ (c.date_of_claim : Rat) := by
        exact_mod_cast h
      push_cast at hq
      linarith
  · rw [if_neg hz, decide_eq_decide]
    have hpos : 0 < nowSec := lt_of_le_of_ne h0 (Ne.symm hz)
    constructor
    · intro h
      have hq : ((nowDay - days : Int) : Rat) < (c.date_of_claim : Rat) := by
        push_cast
        linarith
      have hi : nowDay - days < c.date_of_claim := by exact_mod_cast hq
      omega
    · intro h
      have hq : ((nowDay - days + 1 : Int) : Rat) ≤ (c.date_of_claim : Rat) := by
        exact_mod_cast h
      push_cast at hq
      linarith

/-- C1 (witness for the amended theorem), at the store `sA` and a 01:00
current time of day. -/
theorem claim_frequency_window_witness :
    calculate_claim_frequency sA 365 3600 "P1" 365 =
      ((get_claims_by_policyholder sA "P1").filter
        (fun c => if (3600 : Rat) = 0 then decide (365 - 365 ≤ c.date_of_claim)
          else decide (365 - 365 + 1 ≤ c.date_of_claim))).length :=
  claim_frequency_window sA "P1" 365 365 3600 (by norm_num) (by norm_num)

set_option maxRecDepth 4000 in
theorem riskRecord_eq_some_iff (s : State) (nowDay : Int) (nowSec : Rat)
    (kv : String × Policyholder) (r : HighRisk) :
    riskRecord s nowDay nowSec kv = some r ↔
      ((3 < calculate_claim_frequency s nowDay nowSec kv.1 365 ∨
        (8 : Rat) / 10 <
          ((get_claims_by_policyholder s kv.1).map Claim.claim_amount).sum
            / kv.2.sum_insured) ∧
       r = ⟨kv.2, calculate_claim_frequency s nowDay nowSec kv.1 365,
         ((get_claims_by_policyholder s kv.1).map Claim.claim_amount).sum,
         ((get_claims_by_policyholder s kv.1).map Claim.claim_amount).sum
           / kv.2.sum_insured,
         (if 3 < calculate_claim_frequency s nowDay nowSec kv.1 365 then
           [RiskFactor.highFrequency (calculate_claim_frequency s nowDay nowSec kv.1 365)]
          else [])
           ++ (if (8 : Rat) / 10 <
                 ((get_claims_by_policyholder s kv.1).map Claim.claim_amount).sum
                   / kv.2.sum_insured then
               [RiskFactor.highRatio
                 (((get_claims_by_policyholder s kv.1).map Claim.claim_amount).sum
                   / kv.2.sum_insured)]
              else [])⟩) := by
  by_cases h1 : 3 < calculate_claim_frequency s nowDay nowSec kv.1 365 <;>
    by_cases h2 : (8 : Rat) / 10 <
      ((get_claims_by_policyholder s kv.1).map Claim.claim_amount).sum
        / kv.2.sum_insured <;>
    simp only [riskRecord]
  · rw [if_pos h1, if_pos h2, if_neg (by simp)]
    constructor
    · intro h
      exact ⟨Or.inl h1, (Option.some.inj h).symm⟩
    · rintro ⟨-, hr⟩
      rw [hr]
  · rw [if_pos h1, if_neg h2, if_neg (by simp)]
    constructor
    · intro h
      exact ⟨Or.inl h1, (Option.some.inj h).symm⟩
    · rintro ⟨-, hr⟩
      rw [hr]
  · rw [if_neg h1, if_pos h2, if_neg (by simp)]
    constructor
    · intro h
      exact ⟨Or.inr h2, (Option.some.inj h).symm⟩
    · rintro ⟨-, hr⟩
      rw [hr]
  · rw [if_neg h1, if_neg h2, if_pos (by simp)]
    constructor
    · intro h
      exact Option.noConfusion h
    · rintro ⟨hc, -⟩
      rcases hc with hc | hc
      · exact absurd hc h1
      · exact absurd hc h2

/-- C2: a record is in `get_high_risk_policyholders` exactly when it
belongs to a stored policyholder with `claim_frequency > 3` (window 365)
or with total claimed over sum insured `> 0.8`, and it then carries the
policyholder, the frequency, the (unwindowed) total, the ratio, and one
risk factor per triggered condition, the frequency factor first;
policyholders triggering neither condition are absent.  (Hypothesis: the
data-model invariant `sum_insured > 0`, under which the embedded `Rat`
division agrees with Python's.) -/
theorem high_risk_policyholders_spec (s : State) (nowDay : Int) (nowSec : Rat)
    (hs : ∀ kv ∈ s.policyholders, 0 < kv.2.sum_insured) (r : HighRisk) :
    r ∈ get_high_risk_policyholders s nowDay nowSec ↔
      ∃ kv ∈ s.policyholders,
        (3 < calculate_claim_frequency s nowDay nowSec kv.1 365 ∨
          (8 : Rat) / 10 <
            ((get_claims_by_policyholder s kv.1).map Claim.claim_amount).sum
              / kv.2.sum_insured) ∧
        r = ⟨kv.2, calculate_claim_frequency s nowDay nowSec kv.1 365,
          ((get_claims_by_policyholder s kv.1).map Claim.claim_amount).sum,
          ((get_claims_by_policyholder s kv.1).map Claim.claim_amount).sum
            / kv.2.sum_insured,
          (if 3 < calculate_claim_frequency s nowDay nowSec kv.1 365 then
            [RiskFactor.highFrequency (calculate_claim_frequency s nowDay nowSec kv.1 365)]
           else [])
            ++ (if (8 : Rat) / 10 <
                  ((get_claims_by_policyholder s kv.1).map Claim.claim_amount).sum
                    / kv.2.sum_insured then
                [RiskFactor.highRatio
                  (((get_claims_by_policyholder s kv.1).map Claim.claim_amount).sum
                    / kv.2.sum_insured)]
               else [])⟩ := by
  unfold get_high_risk_policyholders
  rw [List.mem_filterMap]
  constructor
  · rintro ⟨kv, hkv, hrec⟩
    exact ⟨kv, hkv, (riskRecord_eq_some_iff s nowDay nowSec kv r).mp hrec⟩
  · rintro ⟨kv, hkv, hcond⟩
    exact ⟨kv, hkv, (riskRecord_eq_some_iff s nowDay nowSec kv r).mpr hcond⟩

/-- C2 (witness): the membership characterization instantiated at the
concrete store `sA` (whose lone policyholder has `sum_insured = 10000`). -/
theorem high_risk_policyholders_spec_witness :
    (⟨phA, 0, 0, 0, []⟩ : HighRisk) ∈ get_high_risk_policyholders sA 365 0 ↔
      ∃ kv ∈ sA.policyholders,
        (3 < calculate_claim_frequency sA 365 0 kv.1 365 ∨
          (8 : Rat) / 10 <
            ((get_claims_by_policyholder sA kv.1).map Claim.claim_amount).sum
              / kv.2.sum_insured) ∧
        (⟨phA, 0, 0, 0, []⟩ : HighRisk) =
          ⟨kv.2, calculate_claim_frequency sA 365 0 kv.1 365,
          ((get_claims_by_policyholder sA kv.1).map Claim.claim_amount).sum,
          ((get_claims_by_policyholder sA kv.1).map Claim.claim_amount).sum
            / kv.2.sum_insured,
          (if 3 < calculate_claim_frequency sA 365 0 kv.1 365 then
            [RiskFactor.highFrequency (calculate_claim_frequency sA 365 0 kv.1 365)]
           else [])
            ++ (if (8 : Rat) / 10 <
                  ((get_claims_by_policyholder sA kv.1).map Claim.claim_amount).sum
                    / kv.2.sum_insured then
                [RiskFactor.highRatio
                  (((get_claims_by_policyholder sA kv.1).map Claim.claim_amount).sum
                    / kv.2.sum_insured)]
               else [])⟩ :=
  high_risk_policyholders_spec sA 365 0 (by decide) ⟨phA, 0, 0, 0, []⟩

theorem from_dict_to_dict_policyholder (p : Policyholder) :
    Policyholder.from_dict p.to_dict = some p := rfl

theorem from_dict_to_dict_claim (c : Claim) : Claim.from_dict c.to_dict = some c := rfl

theorem decodeEntries_map {α : Type} (dec : List (String × JVal) → Option α)
    (enc : α → List (String × JVal)) (h : ∀ a, dec (enc a) = some a) :
    ∀ l : List (String × α),
      decodeEntries dec (l.map (fun kv => (kv.1, JVal.jobj (enc kv.2)))) = some l := by
  intro l
  induction l with
  | nil => rfl
  | cons kv rest ih => simp [decodeEntries, h, ih]

/-- C3: serializing both maps with `save_data` and deserializing the
result with `load_data` reproduces the store field-for-field, for every
store state (zero, one, or many records). -/
theorem save_load_roundtrip (s : State) : load_data (save_data s) = some s := by
  have hp := decodeEntries_map Policyholder.from_dict Policyholder.to_dict
    from_dict_to_dict_policyholder s.policyholders
  have hc := decodeEntries_map Claim.from_dict Claim.to_dict
    from_dict_to_dict_claim s.claims
  simp [load_data, save_data, alookup, hp, hc]

/-- C4: `add_claim` fails with the not-found error exactly when the
policyholder id is unknown (that check first), with the validation error
when the id is known but the amount is `≤ 0` — the store unchanged in
both failure cases — and on success returns the fresh id and stores
under it a claim with the supplied fields and the current date. -/
theorem add_claim_spec (s : State) (freshId : String) (nowDay : Int)
    (policyholder_id : String) (claim_amount : Rat) (reason status : String) :
    ((alookup s.policyholders policyholder_id).isSome = false →
      add_claim s freshId nowDay policyholder_id claim_amount reason status =
        (Except.error (Err.notFound "Policyholder not found"), s)) ∧
    ((alookup s.policyholders policyholder_id).isSome → claim_amount ≤ 0 →
      add_claim s freshId nowDay policyholder_id claim_amount reason status =
        (Except.error (Err.validation "Claim amount must be positive"), s)) ∧
    ((alookup s.policyholders policyholder_id).isSome → 0 < claim_amount →
      (add_claim s freshId nowDay policyholder_id claim_amount reason status).1 =
        Except.ok freshId ∧
      (add_claim s freshId nowDay policyholder_id claim_amount reason status).2.policyholders =
        s.policyholders ∧
      alookup (add_claim s freshId nowDay policyholder_id claim_amount reason status).2.claims
        freshId = some ⟨freshId, policyholder_id, claim_amount, reason, status, nowDay⟩) := by
  refine ⟨?_, ?_, ?_⟩
  · intro h
    simp [add_claim, h]
  · intro h hle
    simp [add_claim, h, hle]
  · intro h hpos
    have hle : ¬(claim_amount ≤ 0) := not_le.mpr hpos
    refine ⟨?_, ?_, ?_⟩ <;> simp [add_claim, h, hle, alookup_aset]

/-- C5: `add_policyholder` fails with the validation error exactly when
the name is empty or the age or sum insured is non-positive; for valid
inputs it succeeds with the fresh id, leaves the claims alone, and a
lookup of the returned id yields exactly the supplied fields. -/
theorem add_policyholder_spec (s : State) (freshId name : String) (age : Int)
    (policy_type : String) (sum_insured : Rat) :
    ((name = "" ∨ age ≤ 0 ∨ sum_insured ≤ 0) →
      add_policyholder s freshId name age policy_type sum_insured =
        (Except.error (Err.validation
          "Invalid input: Name cannot be empty, age and sum insured must be positive"), s)) ∧
    (name ≠ "" → 0 < age → 0 < sum_insured →
      (add_policyholder s freshId name age policy_type sum_insured).1 = Except.ok freshId ∧
      (add_policyholder s freshId name age policy_type sum_insured).2.claims = s.claims ∧
      alookup (add_policyholder s freshId name age policy_type sum_insured).2.policyholders
        freshId = some ⟨freshId, name, age, policy_type, sum_insured⟩) := by
  constructor
  · intro h
    unfold add_policyholder
    rw [if_pos h]
  · intro h1 h2 h3
    have hcond : ¬(name = "" ∨ age ≤ 0 ∨ sum_insured ≤ 0) := by
      push_neg
      exact ⟨h1, h2, h3⟩
    unfold add_policyholder
    rw [if_neg hcond]
    exact ⟨rfl, rfl, by rw [alookup_aset, if_pos rfl]⟩

/-- C6: `update_claim_status` fails with the not-found error exactly when
the claim id is unknown (store unchanged); on a known id it accepts any
status string, overwrites only that claim's `status` field, and leaves
every other claim and every policyholder untouched. -/
theorem update_claim_status_spec (s : State) (claim_id status : String) :
    (alookup s.claims claim_id = none →
      update_claim_status s claim_id status =
        (Except.error (Err.notFound "Claim not found"), s)) ∧
    (∀ c, alookup s.claims claim_id = some c →
      (update_claim_status s claim_id status).1 = Except.ok () ∧
      (update_claim_status s claim_id status).2.policyholders = s.policyholders ∧
      alookup (update_claim_status s claim_id status).2.claims claim_id =
        some { c with status := status } ∧
      (∀ k, k ≠ claim_id →
        alookup (update_claim_status s claim_id status).2.claims k = alookup s.claims k)) := by
  constructor
  · intro h
    simp [update_claim_status, h]
  · intro c h
    refine ⟨?_, ?_, ?_, ?_⟩
    · simp [update_claim_status, h]
    · simp [update_claim_status, h]
    · simp [update_claim_status, h, alookup_aset]
    · intro k hk
      simp only [update_claim_status, h]
      rw [alookup_aset, if_neg (fun he => hk he.symm)]

/-- C4 (witness): the three branches at the concrete store `sA`. -/
theorem add_claim_spec_witness :
    add_claim sA "F1" 400 "NOPE" 500 "r" "Pending" =
      (Except.error (Err.notFound "Policyholder not found"), sA) ∧
    add_claim sA "F1" 400 "P1" 0 "r" "Pending" =
      (Except.error (Err.validation "Claim amount must be positive"), sA) ∧
    ((add_claim sA "F1" 400 "P1" 500 "r" "Pending").1 = Except.ok "F1" ∧
     (add_claim sA "F1" 400 "P1" 500 "r" "Pending").2.policyholders = sA.policyholders ∧
     alookup (add_claim sA "F1" 400 "P1" 500 "r" "Pending").2.claims "F1" =
       some ⟨"F1", "P1", 500, "r", "Pending", 400⟩) :=
  ⟨(add_claim_spec sA "F1" 400 "NOPE" 500 "r" "Pending").1 (by decide),
   (add_claim_spec sA "F1" 400 "P1" 0 "r" "Pending").2.1 (by decide) (by decide),
   (add_claim_spec sA "F1" 400 "P1" 500 "r" "Pending").2.2 (by decide) (by decide)⟩

/-- C5 (witness): an empty name is rejected; a valid record is stored
with exactly the supplied fields. -/
theorem add_policyholder_spec_witness :
    add_policyholder sA "F2" "" 30 "Health" 1000 =
      (Except.error (Err.validation
        "Invalid input: Name cannot be empty, age and sum insured must be positive"), sA) ∧
    ((add_policyholder sA "F2" "Carol" 30 "Health" 1000).1 = Except.ok "F2" ∧
     (add_policyholder sA "F2" "Carol" 30 "Health" 1000).2.claims = sA.claims ∧
     alookup (add_policyholder sA "F2" "Carol" 30 "Health" 1000).2.policyholders "F2" =
       some ⟨"F2", "Carol", 30, "Health", 1000⟩) :=
  ⟨(add_policyholder_spec sA "F2" "" 30 "Health" 1000).1 (Or.inl rfl),
   (add_policyholder_spec sA "F2" "Carol" 30 "Health" 1000).2 (by decide) (by decide)
     (by decide)⟩

/-- C6 (witness): unknown id rejected; on `"C1"` only the status field
changes and an unrelated key reads back unchanged. -/
theorem update_claim_status_spec_witness :
    update_claim_status sA "XX" "Approved" =
      (Except.error (Err.notFound "Claim not found"), sA) ∧
    (update_claim_status sA "C1" "Approved").1 = Except.ok () ∧
    (update_claim_status sA "C1" "Approved").2.policyholders = sA.policyholders ∧
    alookup (update_claim_status sA "C1" "Approved").2.claims "C1" =
      some { clA with status := "Approved" } ∧
    alookup (update_claim_status sA "C1" "Approved").2.claims "ZZ" = alookup sA.claims "ZZ" := by
  have h := (update_claim_status_spec sA "C1" "Approved").2 clA (by decide)
  exact ⟨(update_claim_status_spec sA "XX" "Approved").1 (by decide),
    h.1, h.2.1, h.2.2.1, h.2.2.2 "ZZ" (by decide)⟩

/-- C7: whenever every stored claim resolves to a stored policyholder
(the data-model invariant) and every status lowercases to `"pending"`,
`"approved"` or `"rejected"`, the aggregation succeeds and maps exactly
the policy types with at least one claim to their claim count, amount
total, and per-lowercased-status counts; and there is a store state with
a claim whose status lowercases to none of the three on which the
aggregation fails (`KeyError`). -/
theorem claims_by_policy_type_spec :
    (∀ s : State,
      (∀ kv ∈ s.claims, (resolveType s kv.2).isSome) →
      (∀ kv ∈ s.claims, goodStatus kv.2) →
      ∃ m, get_claims_by_policy_type s = some m ∧
        ∀ t, alookup m t =
          if claimsOfType s (s.claims.map Prod.snd) t = [] then none
          else some (aggOf s (s.claims.map Prod.snd) t)) ∧
    (∃ s : State, (∃ kv ∈ s.claims, ¬goodStatus kv.2) ∧
      get_claims_by_policy_type s = none) := by
  constructor
  · intro s hres hst
    have h1 : ∀ c ∈ s.claims.map Prod.snd, (resolveType s c).isSome := by
      intro c hc
      obtain ⟨kv, hkv, hkvc⟩ := List.mem_map.mp hc
      rw [← hkvc]
      exact hres kv hkv
    have h2 : ∀ c ∈ s.claims.map Prod.snd, goodStatus c := by
      intro c hc
      obtain ⟨kv, hkv, hkvc⟩ := List.mem_map.mp hc
      rw [← hkvc]
      exact hst kv hkv
    have h0 : ∀ t, alookup ([] : List (String × PolicyAgg)) t =
        if claimsOfType s [] t = [] then none else some (aggOf s [] t) := by
      intro t
      simp [alookup, claimsOfType, List.filter]
    obtain ⟨m, hm, hinv⟩ := cbptLoop_inv s (s.claims.map Prod.snd) [] [] h1 h2 h0
    refine ⟨m, hm, ?_⟩
    intro t
    have := hinv t
    rwa [List.nil_append] at this
  · refine ⟨sBad, ⟨("C1", { clA with status := "Weird" }), by decide, by decide⟩, ?_⟩
    rfl

/-- C7 (witness): the successful half applied to the concrete store `sA`
(one `"Pending"` claim resolving to `"Health"`). -/
theorem claims_by_policy_type_spec_witness :
    ∃ m, get_claims_by_policy_type sA = some m ∧
      ∀ t, alookup m t =
        if claimsOfType sA (sA.claims.map Prod.snd) t = [] then none
        else some (aggOf sA (sA.claims.map Prod.snd) t) :=
  claims_by_policy_type_spec.1 sA (by decide) (by decide)

/-- C8: under the data-model invariant that every claim resolves to a
stored policyholder, `get_average_claim_by_policy_type` succeeds and its
keys are exactly the policy types with at least one resolving claim (so
every per-type count is ≥ 1 and the division is defined), each value
being that type's amount total divided by its claim count. -/
theorem average_claim_by_policy_type_spec (s : State)
    (hres : ∀ kv ∈ s.claims, (resolveType s kv.2).isSome) :
    ∃ m, get_average_claim_by_policy_type s = some m ∧
      ∀ t, alookup m t =
        if claimsOfType s (s.claims.map Prod.snd) t = [] then none
        else some (((claimsOfType s (s.claims.map Prod.snd) t).map Claim.claim_amount).sum
          / ((claimsOfType s (s.claims.map Prod.snd) t).length : Rat)) := by
  have h1 : ∀ c ∈ s.claims.map Prod.snd, (resolveType s c).isSome := by
    intro c hc
    obtain ⟨kv, hkv, hkvc⟩ := List.mem_map.mp hc
    rw [← hkvc]
    exact hres kv hkv
  have h0t : ∀ t, alookup ([] : List (String × Rat)) t =
      if claimsOfType s [] t = [] then none
      else some ((claimsOfType s [] t).map Claim.claim_amount).sum := by
    intro t
    simp [alookup, claimsOfType, List.filter]
  have h0c : ∀ t, alookup ([] : List (String × Nat)) t =
      if claimsOfType s [] t = [] then none else some (claimsOfType s [] t).length := by
    intro t
    simp [alookup, claimsOfType, List.filter]
  obtain ⟨totals, counts, hloop, ht0, hc0⟩ :=
    avgLoop_inv s (s.claims.map Prod.snd) [] [] [] h1 h0t h0c
  have ht : ∀ t, alookup totals t =
      if claimsOfType s (s.claims.map Prod.snd) t = [] then none
      else some ((claimsOfType s (s.claims.map Prod.snd) t).map Claim.claim_amount).sum := by
    intro t
    have := ht0 t
    rwa [List.nil_append] at this
  have hc : ∀ t, alookup counts t =
      if claimsOfType s (s.claims.map Prod.snd) t = [] then none
      else some (claimsOfType s (s.claims.map Prod.snd) t).length := by
    intro t
    have := hc0 t
    rwa [List.nil_append] at this
  have hsome : ∀ kv ∈ totals, (alookup counts kv.1).isSome := by
    intro kv hkv
    have hks := alookup_isSome_of_mem hkv
    by_cases hemp : claimsOfType s (s.claims.map Prod.snd) kv.1 = []
    · rw [ht kv.1, if_pos hemp] at hks
      cases hks
    · rw [hc kv.1, if_neg hemp]
      rfl
  obtain ⟨m, hdiv⟩ := divEntries_eq_some totals hsome
  refine ⟨m, ?_, ?_⟩
  · unfold get_average_claim_by_policy_type
    rw [hloop]
    exact hdiv
  · intro t
    rw [alookup_divEntries hdiv t]
    by_cases hemp : claimsOfType s (s.claims.map Prod.snd) t = []
    · rw [ht t, if_pos hemp, if_pos hemp]
      rfl
    · rw [ht t, if_neg hemp, hc t, if_neg hemp, if_neg hemp]
      rfl

/-- C8 (witness): applied to the concrete store `sH`, which holds two
`"Health"` claims of amounts 100 and 300. -/
theorem average_claim_by_policy_type_spec_witness :
    ∃ m, get_average_claim_by_policy_type sH = some m ∧
      ∀ t, alookup m t =
        if claimsOfType sH (sH.claims.map Prod.snd) t = [] then none
        else some (((claimsOfType sH (sH.claims.map Prod.snd) t).map Claim.claim_amount).sum
          / ((claimsOfType sH (sH.claims.map Prod.snd) t).length : Rat)) :=
  average_claim_by_policy_type_spec sH (by decide)

/-- C9: `get_highest_claim` returns the `none` sentinel exactly when the
claim map is empty; otherwise it returns a stored claim whose amount is
greater than or equal to every claim's amount, and it is the first
maximal claim in iteration order (every claim before it is strictly
smaller). -/
theorem highest_claim_spec (s : State) :
    (get_highest_claim s = none ↔ s.claims = []) ∧
    (∀ c, get_highest_claim s = some c →
      ∃ pre post, s.claims.map Prod.snd = pre ++ c :: post ∧
        (∀ x ∈ pre, x.claim_amount < c.claim_amount) ∧
        (∀ x ∈ s.claims.map Prod.snd, x.claim_amount ≤ c.claim_amount)) := by
  cases hcl : s.claims.map Prod.snd with
  | nil =>
      have hempty : s.claims = [] := List.map_eq_nil.mp hcl
      constructor
      · constructor
        · intro _
          exact hempty
        · intro _
          unfold get_highest_claim
          rw [hcl]
      · intro c hc
        unfold get_highest_claim at hc
        rw [hcl] at hc
        cases hc
  | cons c0 rest =>
      have hne : s.claims ≠ [] := by
        intro h
        rw [h] at hcl
        cases hcl
      constructor
      · constructor
        · intro h
          unfold get_highest_claim at h
          rw [hcl] at h
          cases h
        · intro h
          exact absurd h hne
      · intro c hc
        unfold get_highest_claim at hc
        rw [hcl] at hc
        have hc' : maxByAmount c0 rest = c := Option.some.inj hc
        rcases maxByAmount_spec rest c0 with ⟨heq, hle⟩ | ⟨pre, post, hsplit, hlt, hpre, hpost⟩
        · have hcc : c = c0 := by rw [← hc', heq]
          refine ⟨[], rest, ?_, ?_, ?_⟩
          · rw [hcc]
            rfl
          · intro x hx
            cases hx
          · intro x hx
            rcases List.mem_cons.mp hx with h | h
            · rw [h, hcc]
            · rw [hcc]
              exact hle x h
        · rw [hc'] at hsplit hlt hpre hpost
          refine ⟨c0 :: pre, post, ?_, ?_, ?_⟩
          · rw [hsplit]
            rfl
          · intro x hx
            rcases List.mem_cons.mp hx with h | h
            · rw [h]
              exact hlt
            · exact hpre x h
          · intro x hx
            rcases List.mem_cons.mp hx with h | h
            · rw [h]
              exact le_of_lt hlt
            · rw [hsplit] at h
              rcases List.mem_append.mp h with h | h
              · exact le_of_lt (hpre x h)
              · rcases List.mem_cons.mp h with h | h
                · rw [h]
                · exact hpost x h

/-- C9 (witness): over the claims of amounts 100, 500, 250 in `sM`, the
500 claim `cM2` is returned and dominates the list. -/
theorem highest_claim_spec_witness :
    ∃ pre post, sM.claims.map Prod.snd = pre ++ cM2 :: post ∧
      (∀ x ∈ pre, x.claim_amount < cM2.claim_amount) ∧
      (∀ x ∈ sM.claims.map Prod.snd, x.claim_amount ≤ cM2.claim_amount) :=
  (highest_claim_spec sM).2 cM2 (by decide)

/-- C10: `get_claims_by_policyholder` is total for every store state and
every id: its result holds exactly the claims whose `policyholder_id`
equals the argument, and (under the data-model invariant that every
claim's reference resolves) an unknown id yields the empty list rather
than an error. -/
theorem get_claims_by_policyholder_spec (s : State) (policyholder_id : String) :
    (∀ c, c ∈ get_claims_by_policyholder s policyholder_id ↔
      (c ∈ s.claims.map Prod.snd ∧ c.policyholder_id = policyholder_id)) ∧
    ((∀ kv ∈ s.claims, (alookup s.policyholders kv.2.policyholder_id).isSome) →
      (alookup s.policyholders policyholder_id).isSome = false →
      get_claims_by_policyholder s policyholder_id = []) := by
  constructor
  · intro c
    unfold get_claims_by_policyholder
    rw [List.mem_filter]
    simp
  · intro hri hunk
    unfold get_claims_by_policyholder
    rw [List.filter_eq_nil]
    intro c hc
    obtain ⟨kv, hkv, hkvc⟩ := List.mem_map.mp hc
    simp only [beq_iff_eq]
    intro heqid
    have hs2 := hri kv hkv
    rw [hkvc, heqid, hunk] at hs2
    cases hs2

/-- C10 (witness): at the store `sA`, the membership characterization for
its claim `clA`, and the empty result for the unknown id `"NOPE"`. -/
theorem get_claims_by_policyholder_spec_witness :
    ((clA ∈ get_claims_by_policyholder sA "P1") ↔
      (clA ∈ sA.claims.map Prod.snd ∧ clA.policyholder_id = "P1")) ∧
    get_claims_by_policyholder sA "NOPE" = [] :=
  ⟨(get_claims_by_policyholder_spec sA "P1").1 clA,
   (get_claims_by_policyholder_spec sA "NOPE").2 (by decide) (by decide)⟩
